import Mathlib

/-!
Verification of the libublk-rs core (`src/lib.rs`) against its
natural-language specification.

The development shallowly embeds the relevant parts of the source:
machine integers become `Nat`/`Int` with explicit `% 2^w` where the Rust
code truncates, stateful queue code becomes explicit state passing over a
`QState` record, and the per-queue engine is modelled as a transition
system whose events are kernel-command completions and target
`complete_io` calls.
-/

/-! ## Kernel uAPI constants

The repository compiles generated bindings (`ublk_cmd.rs`, produced by
bindgen from the Linux ublk uAPI header) that are not part of the two
source files.  The constants below are modelled from the spec's
description of that uAPI. -/

/-- Modelled from the spec: kernel uring-cmd opcode `UBLK_IO_FETCH_REQ`
(generated binding, value from the Linux ublk uAPI). -/
def UBLK_IO_FETCH_REQ : Nat := 0x20

/-- Modelled from the spec: kernel uring-cmd opcode
`UBLK_IO_COMMIT_AND_FETCH_REQ` (generated binding, value from the Linux
ublk uAPI). -/
def UBLK_IO_COMMIT_AND_FETCH_REQ : Nat := 0x21

/-- Modelled from the spec: CQE result `UBLK_IO_RES_OK` (new request
available). -/
def UBLK_IO_RES_OK : Int := 0

/-- Modelled from the spec: CQE result `UBLK_IO_RES_ABORT` (queue tearing
down); `-ENODEV` in the Linux ublk uAPI. -/
def UBLK_IO_RES_ABORT : Int := -19

/-- Modelled from the spec: device state `UBLK_S_DEV_QUIESCED` (generated
binding, value from the Linux ublk uAPI). -/
def UBLK_S_DEV_QUIESCED : Nat := 2

/-- Modelled from the spec: `UBLKSRV_IO_BUF_OFFSET` (generated binding,
value from the Linux ublk uAPI). -/
def UBLKSRV_IO_BUF_OFFSET : Nat := 0x80000000

/-- Modelled from the spec: `UBLK_QID_OFF` (generated binding; bit
position of the queue id inside a user-copy buffer position). -/
def UBLK_QID_OFF : Nat := 41

/-- Modelled from the spec: `UBLK_TAG_OFF` (generated binding; bit
position of the tag inside a user-copy buffer position). -/
def UBLK_TAG_OFF : Nat := 25

/-- Modelled from the spec: `UBLK_IO_BUF_BITS_MASK` (generated binding;
mask of the per-io buffer offset bits, `2^25 - 1`). -/
def UBLK_IO_BUF_BITS_MASK : Nat := 2 ^ 25 - 1

/-- Modelled from the spec: `UBLK_MAX_QUEUE_DEPTH` (generated binding,
4096 in the Linux ublk uAPI). -/
def UBLK_MAX_QUEUE_DEPTH : Nat := 4096

/-- `libc::EBUSY` on Linux. -/
def EBUSY : Int := 16

/-! ## Small helpers from `lib.rs` -/

/-- Bitwise complement inside a `u32`, i.e. Rust's `!x` on `u32`. -/
def u32Not (x : Nat) : Nat := 2 ^ 32 - 1 - x % 2 ^ 32

/-- `round_up` from `lib.rs:58`: `(val + rnd - 1) & !(rnd - 1)` in `u32`
arithmetic (the addition wraps at `2^32`). -/
def round_up (val rnd : Nat) : Nat :=
  ((val + rnd - 1) % 2 ^ 32) &&& u32Not (rnd - 1)

/-! ## User-data codec (`lib.rs:836-860`) -/

/-- `build_user_data` from `lib.rs:838`.  `tag` is a `u16`, `op` and
`tgt_data` are `u32`s with `op >> 8 == 0` and `tgt_data >> 16 == 0`
asserted.  Note the source computes `(op << 16)` and `(tgt_data << 24)`
in 32-bit arithmetic before casting to `u64`, which the `% 2^32` mirrors. -/
def build_user_data (tag op tgt_data : Nat) (is_tgt : Bool) : Nat :=
  match is_tgt with
  | true => tag ||| ((op <<< 16) % 2 ^ 32) ||| ((tgt_data <<< 24) % 2 ^ 32) ||| (1 <<< 63)
  | false => tag ||| ((op <<< 16) % 2 ^ 32) ||| ((tgt_data <<< 24) % 2 ^ 32)

/-- `is_target_io` from `lib.rs:848`. -/
def is_target_io (user_data : Nat) : Bool :=
  user_data &&& (1 <<< 63) != 0

/-- `user_data_to_tag` from `lib.rs:853`. -/
def user_data_to_tag (user_data : Nat) : Nat :=
  user_data &&& 0xffff

/-- `user_data_to_op` from `lib.rs:858`. -/
def user_data_to_op (user_data : Nat) : Nat :=
  (user_data >>> 16) &&& 0xff

/-- The `tgt_data` decoder that the spec's layout
`[bits 24..39: tgt_data_16]` prescribes.  There is no such accessor in
the source; this follows the spec's words and is compared against
`build_user_data`. -/
def spec_tgt_data_bits (user_data : Nat) : Nat :=
  (user_data >>> 24) &&& 0xffff

/-- `ublk_user_copy_pos` from `lib.rs:827`. -/
def ublk_user_copy_pos (q_id tag offset : Nat) : Nat :=
  UBLKSRV_IO_BUF_OFFSET + ((q_id <<< UBLK_QID_OFF) ||| (tag <<< UBLK_TAG_OFF) ||| offset)

/-! ## Control engine (`lib.rs:131-528`) -/

/-- The error type `UblkError` from `lib.rs:16-41` (payloads that are
foreign OS objects in Rust are dropped). -/
inductive UblkError where
  | UringSubmissionError
  | UringPushError
  | UringIOError (code : Int)
  | JsonError
  | MmapError
  | QueueIsDown
  | OtherIOError
  | OtherError (code : Int)
deriving DecidableEq

/-- The CQE-result classification of `ublk_ctrl_cmd` (`lib.rs:145-150`):
`Ok(res)` when the completion result is `0` or `-EBUSY`, otherwise
`Err(UringIOError(res))`. -/
def ublk_ctrl_cmd_result (res : Int) : Except UblkError Int :=
  if res = 0 ∨ res = -EBUSY then .ok res else .error (.UringIOError res)

/-- The control commands `start_dev` can issue, one constructor per
`UblkCtrl` method it calls (`get_info`, `set_params`, `flush_json`,
`start`, `end_user_recover`). -/
inductive CtrlOp where
  | get_dev_info
  | set_params
  | flush_json
  | start_dev_cmd (pid : Int)
  | end_user_recover (pid : Int)
deriving DecidableEq

/-- `start_dev` from `lib.rs:515-528`, modelled as the sequence of
control operations it issues together with its return value.  `exec`
gives the outcome the environment (kernel / filesystem) produces for
each operation, and `state_after_info` is the `dev_info.state` observed
after the initial `get_info` refresh.  The `?` operator of the source
becomes early return on `.error`. -/
def start_dev (exec : CtrlOp → Except UblkError Int) (state_after_info : Nat)
    (pid : Int) : List CtrlOp × Except UblkError Int :=
  match exec .get_dev_info with
  | .error e => ([.get_dev_info], .error e)
  | .ok _ =>
    if state_after_info ≠ UBLK_S_DEV_QUIESCED then
      match exec .set_params with
      | .error e => ([.get_dev_info, .set_params], .error e)
      | .ok _ =>
        match exec .flush_json with
        | .error e => ([.get_dev_info, .set_params, .flush_json], .error e)
        | .ok _ =>
          match exec (.start_dev_cmd pid) with
          | .error e =>
              ([.get_dev_info, .set_params, .flush_json, .start_dev_cmd pid], .error e)
          | .ok _ =>
              ([.get_dev_info, .set_params, .flush_json, .start_dev_cmd pid], .ok 0)
    else
      match exec (.end_user_recover pid) with
      | .error e => ([.get_dev_info, .end_user_recover pid], .error e)
      | .ok _ => ([.get_dev_info, .end_user_recover pid], .ok 0)

/-- The retry loop of `start_user_recover` (`lib.rs:476-493`).
`attempt n` is the result of the `n`-th call to `__start_user_recover`;
the function returns the final result together with the number of
attempts made and the number of 100 ms sleeps taken.  `count` mirrors
the accumulated milliseconds of the source. -/
def bumpRetry (p : Except UblkError Int × Nat × Nat) :
    Except UblkError Int × Nat × Nat :=
  (p.1, p.2.1 + 1, p.2.2 + 1)

def start_user_recover_go (attempt : Nat → Except UblkError Int) (n count : Nat) :
    Except UblkError Int × Nat × Nat :=
  match attempt n with
  | .ok r =>
    if r = -EBUSY then
      if _h : count + 100 < 30000 then
        bumpRetry (start_user_recover_go attempt (n + 1) (count + 100))
      else (.ok r, 1, 1)
    else (.ok r, 1, 0)
  | .error e => (.error e, 1, 0)
termination_by 30000 - count
decreasing_by omega

/-- `start_user_recover` from `lib.rs:476`: the loop entered with
`count = 0`. -/
def start_user_recover (attempt : Nat → Except UblkError Int) :
    Except UblkError Int × Nat × Nat :=
  start_user_recover_go attempt 0 0

/-! ## Queue engine (`lib.rs:862-1258`)

The per-slot flag bits and queue state bits from `lib.rs:862-883`. -/

def UBLK_IO_NEED_FETCH_RQ : Nat := 1 <<< 0

def UBLK_IO_NEED_COMMIT_RQ_COMP : Nat := 1 <<< 1

def UBLK_IO_FREE : Nat := 1 <<< 2

def UBLK_QUEUE_STOPPING : Nat := 1 <<< 0

def UBLK_QUEUE_IDLE : Nat := 1 <<< 1

/-- One I/O slot (`struct UblkIO`, `lib.rs:866`); the buffer pointers are
opaque machine addresses and are not modelled. -/
structure UblkIO where
  flags : Nat
  result : Int
deriving DecidableEq

/-- A kernel-command SQE as pushed by `__queue_io_cmd` (`lib.rs:1067-1087`):
the opcode, the inline `ublksrv_io_cmd{tag, q_id, result}` payload and the
packed `user_data`.  `iof` records the slot flags at push time (the value
the source logs in its trace line), so that statements about "an SQE built
from a slot whose flags contain NEED_FETCH" can be made. -/
structure KSqe where
  cmd_op : Nat
  tag : Nat
  q_id : Nat
  result : Int
  user_data : Nat
  iof : Nat
deriving DecidableEq

/-- The queue state (`struct UblkQueue`, `lib.rs:891`): the slot vector is
a function from tag to slot, and `pushed` is the (ghost) list of all
kernel-command SQEs pushed to the ring so far, in order. -/
structure QState where
  q_id : Nat
  q_depth : Nat
  ios : Nat → UblkIO
  cmd_inflight : Nat
  q_state : Nat
  pushed : List KSqe

/-- Point update of the slot vector, i.e. `self.ios[tag] = io`. -/
def setSlot (ios : Nat → UblkIO) (tag : Nat) (io : UblkIO) : Nat → UblkIO :=
  fun j => if j = tag then io else ios j

/-- `__queue_io_cmd` from `lib.rs:1051-1100`: map the slot's flags to the
next kernel opcode, push one SQE when there is one, and return the number
of SQEs pushed (`0` or `1`). -/
def __queue_io_cmd (q : QState) (tag : Nat) : QState × Nat :=
  let io := q.ios tag
  if io.flags &&& UBLK_IO_FREE = 0 then (q, 0)
  else if io.flags &&& UBLK_IO_NEED_COMMIT_RQ_COMP ≠ 0 then
    ({ q with pushed := q.pushed ++
        [{ cmd_op := UBLK_IO_COMMIT_AND_FETCH_REQ, tag := tag, q_id := q.q_id,
           result := io.result,
           user_data := build_user_data tag UBLK_IO_COMMIT_AND_FETCH_REQ 0 false,
           iof := io.flags }] }, 1)
  else if io.flags &&& UBLK_IO_NEED_FETCH_RQ ≠ 0 then
    ({ q with pushed := q.pushed ++
        [{ cmd_op := UBLK_IO_FETCH_REQ, tag := tag, q_id := q.q_id,
           result := io.result,
           user_data := build_user_data tag UBLK_IO_FETCH_REQ 0 false,
           iof := io.flags }] }, 1)
  else (q, 0)

/-- `queue_io_cmd` from `lib.rs:1103-1112`: on a successful push,
increment `cmd_inflight` and zero the slot's flags. -/
def queue_io_cmd (q : QState) (tag : Nat) : QState × Nat :=
  let r := __queue_io_cmd q tag
  if r.2 > 0 then
    ({ r.1 with cmd_inflight := r.1.cmd_inflight + 1,
                ios := setSlot r.1.ios tag { r.1.ios tag with flags := 0 } }, r.2)
  else r

/-- `mark_io_done` from `lib.rs:1039`: or `NEED_COMMIT|FREE` into the
slot's flags and store the result. -/
def mark_io_done (q : QState) (tag : Nat) (res : Int) : QState :=
  let io : UblkIO :=
    { flags := (q.ios tag).flags ||| (UBLK_IO_NEED_COMMIT_RQ_COMP ||| UBLK_IO_FREE),
      result := res }
  { q with ios := setSlot q.ios tag io }

/-- `complete_io` from `lib.rs:1132`: `mark_io_done` then `queue_io_cmd`. -/
def complete_io (q : QState) (tag : Nat) (res : Int) : QState :=
  (queue_io_cmd (mark_io_done q tag res) tag).1

/-- The kernel-command branch of `handle_cqe` (`lib.rs:1179-1199`); the
target-I/O branch only forwards to the target hook and is represented in
runs by subsequent `complete` events.  The target callback `queue_io`
invoked on `UBLK_IO_RES_OK` mutates the queue only through `complete_io`,
so it too is represented by subsequent `complete` events. -/
def handle_cqe (q : QState) (tag : Nat) (res : Int) : QState :=
  let q1 := { q with cmd_inflight := q.cmd_inflight - 1 }
  let q2 :=
    if res = UBLK_IO_RES_ABORT ∨ q1.q_state &&& UBLK_QUEUE_STOPPING ≠ 0 then
      { q1 with q_state := q1.q_state ||| UBLK_QUEUE_STOPPING,
                ios := setSlot q1.ios tag
                  { q1.ios tag with
                    flags := (q1.ios tag).flags &&& u32Not UBLK_IO_NEED_FETCH_RQ } }
    else q1
  if res = UBLK_IO_RES_OK then q2
  else { q2 with ios := setSlot q2.ios tag { q2.ios tag with flags := UBLK_IO_FREE } }

/-- `UblkQueue::new` (`lib.rs:953-1025`), restricted to the state the
claims are about: every slot starts with flags `NEED_FETCH|FREE` and
result `-1`, `cmd_inflight = 0`, `q_state = 0`, nothing pushed. -/
def UblkQueue.new (q_id depth : Nat) : QState :=
  { q_id := q_id, q_depth := depth,
    ios := fun _ => { flags := UBLK_IO_NEED_FETCH_RQ ||| UBLK_IO_FREE, result := -1 },
    cmd_inflight := 0, q_state := 0, pushed := [] }

/-- `submit_fetch_commands` from `lib.rs:1115`: `queue_io_cmd` on every
tag in `[0, q_depth)`. -/
def submit_fetch_commands (q : QState) : QState :=
  (List.range q.q_depth).foldl (fun s i => (queue_io_cmd s i).1) q

/-- An observable event of a queue run after priming: a kernel-command
CQE handled by `handle_cqe`, or a target call to `complete_io`. -/
inductive QEvent where
  | kcqe (tag : Nat) (res : Int)
  | complete (tag : Nat) (res : Int)

/-- The tag an event refers to. -/
def QEvent.evTag : QEvent → Nat
  | .kcqe t _ => t
  | .complete t _ => t

/-- One step of the queue transition system. -/
def qstep (q : QState) (e : QEvent) : QState :=
  match e with
  | .kcqe t r => handle_cqe q t r
  | .complete t r => complete_io q t r

/-- A run of the queue engine: construct, prime all tags, then process a
sequence of events. -/
def qrun (q_id depth : Nat) (evs : List QEvent) : QState :=
  evs.foldl qstep (submit_fetch_commands (UblkQueue.new q_id depth))

/-- Events are well formed for a queue of depth `depth` when every tag is
in range (out-of-range tags panic in the source). -/
abbrev WFEvents (depth : Nat) (evs : List QEvent) : Prop :=
  ∀ e ∈ evs, QEvent.evTag e < depth

/-- The four slot-flag values the spec allows at quiescent points:
`NEED_FETCH|FREE`, empty (inflight / target-owned), `NEED_COMMIT|FREE`,
and `FREE` alone. -/
def flagsOK (f : Nat) : Prop :=
  f = (UBLK_IO_NEED_FETCH_RQ ||| UBLK_IO_FREE) ∨ f = 0 ∨
    f = (UBLK_IO_NEED_COMMIT_RQ_COMP ||| UBLK_IO_FREE) ∨ f = UBLK_IO_FREE

/-- The SQE pushed for tag `tag` while priming queue `qid`. -/
def primeSqe (qid tag : Nat) : KSqe :=
  { cmd_op := UBLK_IO_FETCH_REQ, tag := tag, q_id := qid, result := -1,
    user_data := build_user_data tag UBLK_IO_FETCH_REQ 0 false,
    iof := UBLK_IO_NEED_FETCH_RQ ||| UBLK_IO_FREE }

/-- The queue state right after priming: every slot pushed (flags `0`),
`cmd_inflight = depth`, one `FETCH` SQE per tag in tag order. -/
def primedQ (qid depth : Nat) : QState :=
  { q_id := qid, q_depth := depth,
    ios := fun j => if j < depth then { flags := 0, result := -1 }
      else { flags := UBLK_IO_NEED_FETCH_RQ ||| UBLK_IO_FREE, result := -1 },
    cmd_inflight := depth, q_state := 0,
    pushed := (List.range depth).map (primeSqe qid) }

/-- Invariant of all post-priming states: every in-range slot's flags are
`0`, `NEED_COMMIT|FREE` or `FREE`, and everything pushed after the
priming prefix is a `COMMIT_AND_FETCH` SQE built from a slot without
`NEED_FETCH`. -/
def PostInv (qid depth : Nat) (q : QState) : Prop :=
  q.q_depth = depth ∧
  (∀ j, j < depth → (q.ios j).flags = 0 ∨
      (q.ios j).flags = (UBLK_IO_NEED_COMMIT_RQ_COMP ||| UBLK_IO_FREE) ∨
      (q.ios j).flags = UBLK_IO_FREE) ∧
  ∃ rest, q.pushed = (List.range depth).map (primeSqe qid) ++ rest ∧
    ∀ s ∈ rest, s.cmd_op = UBLK_IO_COMMIT_AND_FETCH_REQ ∧
      s.iof &&& UBLK_IO_NEED_FETCH_RQ = 0

/-! ## Basic lemmas about the queue model -/

lemma setSlot_self (ios : Nat → UblkIO) (tag : Nat) (io : UblkIO) :
    setSlot ios tag io tag = io := by
  simp [setSlot]

lemma setSlot_ne (ios : Nat → UblkIO) (tag : Nat) (io : UblkIO) {j : Nat}
    (h : j ≠ tag) : setSlot ios tag io j = ios j := by
  simp [setSlot, h]

lemma setSlot_setSlot (ios : Nat → UblkIO) (tag : Nat) (io1 io2 : UblkIO) :
    setSlot (setSlot ios tag io1) tag io2 = setSlot ios tag io2 := by
  funext j
  by_cases h : j = tag <;> simp [setSlot, h]

/-- `queue_io_cmd` does nothing when the slot is not `FREE`, or when it
needs neither a commit nor a fetch. -/
lemma queue_io_cmd_no_push (q : QState) (tag : Nat)
    (h : (q.ios tag).flags &&& UBLK_IO_FREE = 0 ∨
      ((q.ios tag).flags &&& UBLK_IO_NEED_COMMIT_RQ_COMP = 0 ∧
       (q.ios tag).flags &&& UBLK_IO_NEED_FETCH_RQ = 0)) :
    queue_io_cmd q tag = (q, 0) := by
  rcases h with h | ⟨h2, h1⟩
  · simp only [queue_io_cmd, __queue_io_cmd]
    rw [if_pos h]
    rfl
  · simp only [queue_io_cmd, __queue_io_cmd]
    by_cases h4 : (q.ios tag).flags &&& UBLK_IO_FREE = 0
    · rw [if_pos h4]
      rfl
    · rw [if_neg h4, if_neg (not_ne_iff.mpr h2), if_neg (not_ne_iff.mpr h1)]
      rfl

/-- `queue_io_cmd` on a `FREE` slot that needs a commit pushes exactly
one `COMMIT_AND_FETCH` SQE, zeroes the flags and bumps `cmd_inflight`. -/
lemma queue_io_cmd_push_commit (q : QState) (tag : Nat)
    (h4 : (q.ios tag).flags &&& UBLK_IO_FREE ≠ 0)
    (h2 : (q.ios tag).flags &&& UBLK_IO_NEED_COMMIT_RQ_COMP ≠ 0) :
    queue_io_cmd q tag =
      ({ q with
          ios := setSlot q.ios tag { q.ios tag with flags := 0 },
          cmd_inflight := q.cmd_inflight + 1,
          pushed := q.pushed ++
            [{ cmd_op := UBLK_IO_COMMIT_AND_FETCH_REQ, tag := tag, q_id := q.q_id,
               result := (q.ios tag).result,
               user_data := build_user_data tag UBLK_IO_COMMIT_AND_FETCH_REQ 0 false,
               iof := (q.ios tag).flags }] }, 1) := by
  simp only [queue_io_cmd, __queue_io_cmd]
  rw [if_neg h4, if_pos h2]
  rfl

/-- `queue_io_cmd` on a `FREE` slot that needs (only) a fetch pushes
exactly one `FETCH` SQE, zeroes the flags and bumps `cmd_inflight`. -/
lemma queue_io_cmd_push_fetch (q : QState) (tag : Nat)
    (h4 : (q.ios tag).flags &&& UBLK_IO_FREE ≠ 0)
    (h2 : (q.ios tag).flags &&& UBLK_IO_NEED_COMMIT_RQ_COMP = 0)
    (h1 : (q.ios tag).flags &&& UBLK_IO_NEED_FETCH_RQ ≠ 0) :
    queue_io_cmd q tag =
      ({ q with
          ios := setSlot q.ios tag { q.ios tag with flags := 0 },
          cmd_inflight := q.cmd_inflight + 1,
          pushed := q.pushed ++
            [{ cmd_op := UBLK_IO_FETCH_REQ, tag := tag, q_id := q.q_id,
               result := (q.ios tag).result,
               user_data := build_user_data tag UBLK_IO_FETCH_REQ 0 false,
               iof := (q.ios tag).flags }] }, 1) := by
  simp only [queue_io_cmd, __queue_io_cmd]
  rw [if_neg h4, if_neg (not_ne_iff.mpr h2), if_pos h1]
  rfl

lemma handle_cqe_pushed (q : QState) (t : Nat) (r : Int) :
    (handle_cqe q t r).pushed = q.pushed := by
  unfold handle_cqe
  dsimp only
  split_ifs <;> rfl

lemma handle_cqe_q_depth (q : QState) (t : Nat) (r : Int) :
    (handle_cqe q t r).q_depth = q.q_depth := by
  unfold handle_cqe
  dsimp only
  split_ifs <;> rfl

/-- The flags of any slot after `handle_cqe` are either unchanged, set to
`FREE`, or masked with `!NEED_FETCH`. -/
lemma handle_cqe_flags (q : QState) (t : Nat) (r : Int) (j : Nat) :
    ((handle_cqe q t r).ios j).flags = (q.ios j).flags ∨
    ((handle_cqe q t r).ios j).flags = UBLK_IO_FREE ∨
    ((handle_cqe q t r).ios j).flags =
      (q.ios j).flags &&& u32Not UBLK_IO_NEED_FETCH_RQ := by
  unfold handle_cqe
  dsimp only
  by_cases hj : j = t
  · subst hj
    split_ifs <;> simp [setSlot]
  · split_ifs <;> simp [setSlot_ne _ _ _ hj]

/-- `complete_io` on a slot whose flags are one of the reachable
post-priming values always pushes one `COMMIT_AND_FETCH` SQE (the marked
flags are `NEED_COMMIT|FREE` in all three cases), zeroes the slot's flags,
stores the result and bumps `cmd_inflight`. -/
lemma complete_io_eq (q : QState) (tag : Nat) (res : Int)
    (hf : (q.ios tag).flags = 0 ∨
      (q.ios tag).flags = (UBLK_IO_NEED_COMMIT_RQ_COMP ||| UBLK_IO_FREE) ∨
      (q.ios tag).flags = UBLK_IO_FREE) :
    complete_io q tag res =
      { q with
        ios := setSlot q.ios tag { flags := 0, result := res },
        cmd_inflight := q.cmd_inflight + 1,
        pushed := q.pushed ++
          [{ cmd_op := UBLK_IO_COMMIT_AND_FETCH_REQ, tag := tag, q_id := q.q_id,
             result := res,
             user_data := build_user_data tag UBLK_IO_COMMIT_AND_FETCH_REQ 0 false,
             iof := UBLK_IO_NEED_COMMIT_RQ_COMP ||| UBLK_IO_FREE }] } := by
  have hmark : (mark_io_done q tag res).ios tag =
      { flags := UBLK_IO_NEED_COMMIT_RQ_COMP ||| UBLK_IO_FREE, result := res } := by
    unfold mark_io_done
    dsimp only
    rw [setSlot_self]
    rcases hf with hf | hf | hf <;> rw [hf] <;> rfl
  have h4 : ((mark_io_done q tag res).ios tag).flags &&& UBLK_IO_FREE ≠ 0 := by
    rw [hmark]
    exact (by decide :
      (UBLK_IO_NEED_COMMIT_RQ_COMP ||| UBLK_IO_FREE) &&& UBLK_IO_FREE ≠ 0)
  have h2 : ((mark_io_done q tag res).ios tag).flags &&&
      UBLK_IO_NEED_COMMIT_RQ_COMP ≠ 0 := by
    rw [hmark]
    exact (by decide :
      (UBLK_IO_NEED_COMMIT_RQ_COMP ||| UBLK_IO_FREE) &&& UBLK_IO_NEED_COMMIT_RQ_COMP ≠ 0)
  unfold complete_io
  rw [queue_io_cmd_push_commit _ _ h4 h2, hmark]
  unfold mark_io_done
  dsimp only
  rw [setSlot_setSlot]

/-- The priming fold: after `queue_io_cmd` on tags `0..k`, the first `k`
slots are pushed (`flags = 0`), the rest untouched, with `k` `FETCH` SQEs
pushed in tag order. -/
lemma prime_fold (qid depth : Nat) : ∀ k, k ≤ depth →
    (List.range k).foldl (fun s i => (queue_io_cmd s i).1) (UblkQueue.new qid depth) =
      { q_id := qid, q_depth := depth,
        ios := fun j => if j < k then { flags := 0, result := -1 }
          else { flags := UBLK_IO_NEED_FETCH_RQ ||| UBLK_IO_FREE, result := -1 },
        cmd_inflight := k, q_state := 0,
        pushed := (List.range k).map (primeSqe qid) } := by
  intro k
  induction k with
  | zero =>
    intro _
    simp only [List.range_zero, List.foldl_nil, List.map_nil]
    unfold UblkQueue.new
    rw [QState.mk.injEq]
    refine ⟨rfl, rfl, ?_, rfl, rfl, rfl⟩
    funext j
    simp
  | succ k ih =>
    intro hk
    rw [List.range_succ, List.foldl_append, ih (by omega), List.foldl_cons,
      List.foldl_nil]
    rw [queue_io_cmd_push_fetch _ _
      (by dsimp only; rw [if_neg (lt_irrefl k)]; decide)
      (by dsimp only; rw [if_neg (lt_irrefl k)]; decide)
      (by dsimp only; rw [if_neg (lt_irrefl k)]; decide)]
    rw [QState.mk.injEq]
    refine ⟨rfl, rfl, ?_, rfl, rfl, ?_⟩
    · funext j
      by_cases hj : j = k
      · subst hj
        rw [setSlot_self]
        simp [lt_irrefl, Nat.lt_succ_self]
      · rw [setSlot_ne _ _ _ hj]
        dsimp only
        rcases Nat.lt_or_ge j k with h | h
        · simp [h, (show j < k + 1 by omega)]
        · simp [(show ¬ j < k by omega), (show ¬ j < k + 1 by omega)]
    · rw [List.map_append]
      simp [primeSqe, lt_irrefl]

/-- Priming the fresh queue produces `primedQ`. -/
lemma submit_fetch_commands_new (qid depth : Nat) :
    submit_fetch_commands (UblkQueue.new qid depth) = primedQ qid depth := by
  unfold submit_fetch_commands
  exact prime_fold qid depth depth le_rfl

lemma PostInv_primedQ (qid depth : Nat) : PostInv qid depth (primedQ qid depth) := by
  refine ⟨rfl, ?_, [], by simp [primedQ], by simp⟩
  intro j hj
  left
  simp [primedQ, hj]

/-- One step of the transition system preserves the post-priming
invariant, and only appends well-formed commit SQEs to the ring. -/
lemma qstep_PostInv (qid depth : Nat) (q : QState) (e : QEvent)
    (hq : PostInv qid depth q) (he : QEvent.evTag e < depth) :
    PostInv qid depth (qstep q e) ∧
    ∃ extra, (qstep q e).pushed = q.pushed ++ extra ∧
      ∀ s ∈ extra, s.cmd_op = UBLK_IO_COMMIT_AND_FETCH_REQ ∧
        s.iof &&& UBLK_IO_NEED_FETCH_RQ = 0 := by
  obtain ⟨hdep, hflags, rest, hpush, hrest⟩ := hq
  cases e with
  | kcqe t r =>
    refine ⟨⟨?_, ?_, rest, ?_, hrest⟩, [], by simp [qstep, handle_cqe_pushed], by simp⟩
    · rw [qstep, handle_cqe_q_depth]
      exact hdep
    · intro j hj
      rcases handle_cqe_flags q t r j with h | h | h
      · rw [qstep, h]
        exact hflags j hj
      · rw [qstep, h]
        right; right; rfl
      · rw [qstep, h]
        rcases hflags j hj with hf | hf | hf <;> rw [hf]
        · left; decide
        · right; left; decide
        · right; right; decide
    · rw [qstep, handle_cqe_pushed]
      exact hpush
  | complete t r =>
    have hf := hflags t (by simpa [QEvent.evTag] using he)
    have hc := complete_io_eq q t r hf
    have hstep : qstep q (QEvent.complete t r) = complete_io q t r := rfl
    rw [hstep, hc]
    have hflags2 : ∀ j, j < depth →
        (setSlot q.ios t { flags := 0, result := r } j).flags = 0 ∨
        (setSlot q.ios t { flags := 0, result := r } j).flags =
          (UBLK_IO_NEED_COMMIT_RQ_COMP ||| UBLK_IO_FREE) ∨
        (setSlot q.ios t { flags := 0, result := r } j).flags = UBLK_IO_FREE := by
      intro j hj
      by_cases hj2 : j = t
      · subst hj2
        rw [setSlot_self]
        left; rfl
      · rw [setSlot_ne _ _ _ hj2]
        exact hflags j hj
    refine ⟨⟨hdep, hflags2, ?_⟩, ?_⟩
    · refine ⟨rest ++ [⟨UBLK_IO_COMMIT_AND_FETCH_REQ, t, q.q_id, r,
        build_user_data t UBLK_IO_COMMIT_AND_FETCH_REQ 0 false,
        UBLK_IO_NEED_COMMIT_RQ_COMP ||| UBLK_IO_FREE⟩], ?_, ?_⟩
      · dsimp only
        rw [hpush, List.append_assoc]
      · intro s hs
        rcases List.mem_append.mp hs with hs | hs
        · exact hrest s hs
        · rw [List.mem_singleton.mp hs]
          exact ⟨rfl, (by decide :
            (UBLK_IO_NEED_COMMIT_RQ_COMP ||| UBLK_IO_FREE) &&&
              UBLK_IO_NEED_FETCH_RQ = 0)⟩
    · refine ⟨[⟨UBLK_IO_COMMIT_AND_FETCH_REQ, t, q.q_id, r,
        build_user_data t UBLK_IO_COMMIT_AND_FETCH_REQ 0 false,
        UBLK_IO_NEED_COMMIT_RQ_COMP ||| UBLK_IO_FREE⟩], rfl, ?_⟩
      intro s hs
      rw [List.mem_singleton.mp hs]
      exact ⟨rfl, (by decide :
        (UBLK_IO_NEED_COMMIT_RQ_COMP ||| UBLK_IO_FREE) &&&
          UBLK_IO_NEED_FETCH_RQ = 0)⟩

/-- Folding any well-formed event list preserves the invariant and only
appends well-formed commit SQEs. -/
lemma foldl_qstep_PostInv (qid depth : Nat) :
    ∀ (evs : List QEvent) (q : QState), PostInv qid depth q →
      (∀ e ∈ evs, QEvent.evTag e < depth) →
      PostInv qid depth (evs.foldl qstep q) ∧
      ∃ extra, (evs.foldl qstep q).pushed = q.pushed ++ extra ∧
        ∀ s ∈ extra, s.cmd_op = UBLK_IO_COMMIT_AND_FETCH_REQ ∧
          s.iof &&& UBLK_IO_NEED_FETCH_RQ = 0 := by
  intro evs
  induction evs with
  | nil =>
    intro q hq _
    exact ⟨hq, [], by simp, by simp⟩
  | cons e evs ih =>
    intro q hq hwf
    rw [List.foldl_cons]
    obtain ⟨hq1, extra1, hp1, he1⟩ :=
      qstep_PostInv qid depth q e hq (hwf e (by simp))
    obtain ⟨hq2, extra2, hp2, he2⟩ :=
      ih (qstep q e) hq1 (fun e2 he2 => hwf e2 (by simp [he2]))
    refine ⟨hq2, extra1 ++ extra2, ?_, ?_⟩
    · rw [hp2, hp1, List.append_assoc]
    · intro s hs
      rcases List.mem_append.mp hs with hs | hs
      · exact he1 s hs
      · exact he2 s hs

/-- A run is the event fold from the primed state. -/
lemma qrun_eq_foldl (qid depth : Nat) (evs : List QEvent) :
    qrun qid depth evs = evs.foldl qstep (primedQ qid depth) := by
  unfold qrun
  rw [submit_fetch_commands_new]

/-- Every run state satisfies the post-priming invariant. -/
lemma qrun_PostInv (qid depth : Nat) (evs : List QEvent)
    (hwf : WFEvents depth evs) :
    PostInv qid depth (qrun qid depth evs) ∧
    ∃ extra, (qrun qid depth evs).pushed =
        (List.range depth).map (primeSqe qid) ++ extra ∧
      ∀ s ∈ extra, s.cmd_op = UBLK_IO_COMMIT_AND_FETCH_REQ ∧
        s.iof &&& UBLK_IO_NEED_FETCH_RQ = 0 := by
  rw [qrun_eq_foldl]
  obtain ⟨h1, extra, h2, h3⟩ :=
    foldl_qstep_PostInv qid depth evs (primedQ qid depth) (PostInv_primedQ qid depth) hwf
  exact ⟨h1, extra, by simpa [primedQ] using h2, h3⟩

/-! ## Bit-arithmetic helper lemmas -/

/-- Or of a shifted value with a value fitting below the shift is
addition. -/
lemma lor_mul_pow_eq_add (a b k : Nat) (hb : b < 2 ^ k) :
    (2 ^ k * a) ||| b = 2 ^ k * a + b := by
  apply Nat.eq_of_testBit_eq
  intro i
  rw [Nat.testBit_or, Nat.testBit_mul_pow_two_add a hb i, Nat.testBit_mul_pow_two]
  by_cases h : i < k
  · simp [h, Nat.not_le.mpr h]
  · have hge : k ≤ i := Nat.le_of_not_lt h
    have hbi : b.testBit i = false :=
      Nat.testBit_lt_two_pow (lt_of_lt_of_le hb (Nat.pow_le_pow_right (by norm_num) hge))
    simp [h, hge, hbi]

/-- Masking a `u32` with the complement of the low `k` bits rounds it
down to a multiple of `2^k`. -/
lemma land_high_mask (y k : Nat) (hy : y < 2 ^ 32) (hk : k ≤ 32) :
    y &&& (2 ^ 32 - 2 ^ k) = 2 ^ k * (y / 2 ^ k) := by
  have hmask : (2 : Nat) ^ 32 - 2 ^ k = 2 ^ k * (2 ^ (32 - k) - 1) := by
    have hp : (2 : Nat) ^ k * 2 ^ (32 - k) = 2 ^ 32 := by
      rw [← pow_add]; congr 1; omega
    rw [Nat.mul_sub, mul_one, hp]
  apply Nat.eq_of_testBit_eq
  intro i
  rw [hmask, Nat.testBit_and, Nat.testBit_mul_pow_two, Nat.testBit_mul_pow_two,
    Nat.testBit_two_pow_sub_one]
  have hdiv : (y / 2 ^ k).testBit (i - k) = y.testBit i ∨ ¬ k ≤ i := by
    by_cases hik : k ≤ i
    · left
      rw [← Nat.shiftRight_eq_div_pow, Nat.testBit_shiftRight]
      congr 1
      omega
    · right; exact hik
  by_cases hik : k ≤ i
  · rcases hdiv with hdiv | hdiv
    · by_cases hi32 : i < 32
      · have hlt : i - k < 32 - k := by omega
        simp [hik, hlt, hdiv]
      · have hyi : y.testBit i = false :=
          Nat.testBit_lt_two_pow
            (lt_of_lt_of_le hy (Nat.pow_le_pow_right (by norm_num) (by omega)))
        have hlt : ¬ i - k < 32 - k := by omega
        simp [hik, hlt, hyi, hdiv]
    · exact absurd hik hdiv
  · simp [hik]

/-! ## Claim C4: user-data codec layout -/

/-- C4 (code_bug evidence): the source computes `(tgt_data << 24)` in
32-bit arithmetic before widening to `u64`, so for `tgt_data = 256`
(allowed by the assert `tgt_data >> 16 == 0`) the shift wraps to zero:
the packed word for `(tag 0, op 0, tgt_data 256, target false)` is `0`,
and the bits `24..39` that the spec assigns to `tgt_data` decode to `0`,
not `256`. -/
theorem build_user_data_drops_tgt_data_high_bits :
    build_user_data 0 0 256 false = 0 ∧
      spec_tgt_data_bits (build_user_data 0 0 256 false) = 0 := by
  constructor <;> decide

/-! ## Claim C9: `round_up` -/

/-- C9 (counterexample): at `x = 2^32 - 1`, `p = 2` the `u32` addition in
`round_up` wraps, the result is `0`, which is not a multiple of `2` that
is `≥ x`. -/
theorem round_up_wraps_at_u32_max :
    round_up 4294967295 2 = 0 ∧ ¬ (4294967295 ≤ round_up 4294967295 2) := by
  constructor <;> decide

/-- C9 (amended): for every `u32` `x` and power of two `p = 2^k`
(`k ≤ 31`) such that the intermediate `x + p - 1` does not overflow a
`u32`, `round_up x p` is the least multiple of `p` that is `≥ x`. -/
theorem round_up_least_multiple (x k : Nat) (hk : k ≤ 31)
    (hx : x + 2 ^ k - 1 < 2 ^ 32) :
    2 ^ k ∣ round_up x (2 ^ k) ∧ x ≤ round_up x (2 ^ k) ∧
      ∀ m, 2 ^ k ∣ m → x ≤ m → round_up x (2 ^ k) ≤ m := by
  have hpos : (0 : Nat) < 2 ^ k := Nat.two_pow_pos k
  have hnot : u32Not (2 ^ k - 1) = 2 ^ 32 - 2 ^ k := by
    unfold u32Not
    have h1 : (2 : Nat) ^ k ≤ 2 ^ 32 := Nat.pow_le_pow_right (by norm_num) (by omega)
    have h2 : (2 : Nat) ^ k - 1 < 2 ^ 32 := by omega
    rw [Nat.mod_eq_of_lt h2]
    omega
  have hru : round_up x (2 ^ k) = 2 ^ k * ((x + 2 ^ k - 1) / 2 ^ k) := by
    unfold round_up
    rw [hnot, Nat.mod_eq_of_lt hx, land_high_mask _ _ hx (by omega)]
  refine ⟨?_, ?_, ?_⟩
  · rw [hru]; exact Dvd.intro _ rfl
  · rw [hru]
    have h1 := Nat.div_add_mod (x + 2 ^ k - 1) (2 ^ k)
    have h2 : (x + 2 ^ k - 1) % 2 ^ k < 2 ^ k := Nat.mod_lt _ hpos
    omega
  · intro m hdvd hxm
    obtain ⟨c, rfl⟩ := hdvd
    rw [hru]
    have h3 : (x + 2 ^ k - 1) / 2 ^ k < c + 1 := by
      rw [Nat.div_lt_iff_lt_mul hpos]
      have : (c + 1) * 2 ^ k = 2 ^ k * c + 2 ^ k := by ring
      omega
    exact Nat.mul_le_mul (le_refl _) (by omega)

/-- C9 witness: at `x = 5`, `p = 4` the rounded value `8` is a multiple
of `4`, is `≥ 5`, and is `≤` the multiple `8`. -/
theorem round_up_least_multiple_witness :
    2 ^ 2 ∣ round_up 5 (2 ^ 2) ∧ 5 ≤ round_up 5 (2 ^ 2) ∧ round_up 5 (2 ^ 2) ≤ 8 := by
  have h := round_up_least_multiple 5 2 (by norm_num) (by norm_num)
  exact ⟨h.1, h.2.1, h.2.2 8 (by norm_num) (by norm_num)⟩

/-! ## Claim C8: user-copy position -/

/-- C8: `ublk_user_copy_pos` is the documented base-plus-packed-fields
formula, and it is injective over `q_id < 2^16`,
`tag < UBLK_MAX_QUEUE_DEPTH`, and offsets with no bits outside
`UBLK_IO_BUF_BITS_MASK`. -/
theorem ublk_user_copy_pos_injective :
    (∀ q t off, ublk_user_copy_pos q t off =
        UBLKSRV_IO_BUF_OFFSET +
          ((q <<< UBLK_QID_OFF) ||| (t <<< UBLK_TAG_OFF) ||| off)) ∧
    ∀ q1 t1 o1 q2 t2 o2,
      q1 < 2 ^ 16 → t1 < UBLK_MAX_QUEUE_DEPTH →
      o1 < 2 ^ 32 → o1 &&& u32Not UBLK_IO_BUF_BITS_MASK = 0 →
      q2 < 2 ^ 16 → t2 < UBLK_MAX_QUEUE_DEPTH →
      o2 < 2 ^ 32 → o2 &&& u32Not UBLK_IO_BUF_BITS_MASK = 0 →
      ublk_user_copy_pos q1 t1 o1 = ublk_user_copy_pos q2 t2 o2 →
      q1 = q2 ∧ t1 = t2 ∧ o1 = o2 := by
  have hoff : ∀ o : Nat, o < 2 ^ 32 → o &&& u32Not UBLK_IO_BUF_BITS_MASK = 0 →
      o < 2 ^ 25 := by
    intro o h1 h2
    have hnot : u32Not UBLK_IO_BUF_BITS_MASK = 2 ^ 32 - 2 ^ 25 := by
      unfold u32Not UBLK_IO_BUF_BITS_MASK
      norm_num
    rw [hnot, land_high_mask o 25 h1 (by norm_num)] at h2
    rcases Nat.mul_eq_zero.mp h2 with h | h
    · exact absurd h (by norm_num)
    · exact (Nat.div_eq_zero_iff (by norm_num)).mp h
  have key : ∀ q t o : Nat, t < 4096 → o < 2 ^ 25 →
      ublk_user_copy_pos q t o = 2 ^ 31 + (q * 2 ^ 41 + t * 2 ^ 25 + o) := by
    intro q t o ht ho
    unfold ublk_user_copy_pos UBLKSRV_IO_BUF_OFFSET UBLK_QID_OFF UBLK_TAG_OFF
    rw [Nat.shiftLeft_eq, Nat.shiftLeft_eq]
    have h1 : t * 2 ^ 25 < 2 ^ 41 := by
      have := (Nat.mul_lt_mul_right (show 0 < 2 ^ 25 by norm_num)).mpr ht
      calc t * 2 ^ 25 < 4096 * 2 ^ 25 := this
        _ ≤ 2 ^ 41 := by norm_num
    have e1 : q * 2 ^ 41 ||| t * 2 ^ 25 = q * 2 ^ 41 + t * 2 ^ 25 := by
      rw [mul_comm q, mul_comm t]
      exact lor_mul_pow_eq_add q (2 ^ 25 * t) 41 (by rw [mul_comm]; exact h1)
    have e2 : (q * 2 ^ 41 + t * 2 ^ 25) ||| o = q * 2 ^ 41 + t * 2 ^ 25 + o := by
      have hrw : q * 2 ^ 41 + t * 2 ^ 25 = 2 ^ 25 * (2 ^ 16 * q + t) := by ring
      rw [hrw, lor_mul_pow_eq_add _ o 25 ho]
    rw [e1, e2]
    norm_num
  constructor
  · intro q t off; rfl
  · intro q1 t1 o1 q2 t2 o2 hq1 ht1 ho1 hm1 hq2 ht2 ho2 hm2 heq
    have ht1' : t1 < 4096 := ht1
    have ht2' : t2 < 4096 := ht2
    have ho1' := hoff o1 ho1 hm1
    have ho2' := hoff o2 ho2 hm2
    rw [key q1 t1 o1 ht1' ho1', key q2 t2 o2 ht2' ho2'] at heq
    norm_num at heq ho1' ho2' hq1 hq2 ht1' ht2' ⊢
    omega

/-- C8 witness: the injectivity theorem applied at the concrete triple
`(1, 2, 3)` on both sides. -/
theorem ublk_user_copy_pos_injective_witness :
    (1 : Nat) = 1 ∧ (2 : Nat) = 2 ∧ (3 : Nat) = 3 :=
  ublk_user_copy_pos_injective.2 1 2 3 1 2 3 (by norm_num)
    (by norm_num [UBLK_MAX_QUEUE_DEPTH]) (by norm_num) (by decide)
    (by norm_num) (by norm_num [UBLK_MAX_QUEUE_DEPTH]) (by norm_num) (by decide) rfl

/-! ## Claim C6: control-command error policy -/

/-- C6: a synchronous control command returns `Ok(res)` exactly when the
CQE result `res` is `0` or `-EBUSY`, and `Err(UringIOError(res))` for any
other negative result. -/
theorem ublk_ctrl_cmd_error_policy (res : Int) :
    (ublk_ctrl_cmd_result res = .ok res ↔ (res = 0 ∨ res = -EBUSY)) ∧
    (res < 0 → res ≠ -EBUSY →
      ublk_ctrl_cmd_result res = .error (.UringIOError res)) := by
  unfold ublk_ctrl_cmd_result
  constructor
  · constructor
    · intro h
      by_contra hc
      rw [if_neg hc] at h
      exact Except.noConfusion h
    · intro h
      rw [if_pos h]
  · intro h1 h2
    rw [if_neg]
    rintro (h | h)
    · omega
    · exact h2 h

/-- C6 witness: the CQE result `-5` is classified as
`Err(UringIOError(-5))`. -/
theorem ublk_ctrl_cmd_error_policy_witness :
    ublk_ctrl_cmd_result (-5) = .error (.UringIOError (-5)) :=
  (ublk_ctrl_cmd_error_policy (-5)).2 (by norm_num) (by decide)

/-! ## Claim C5: `start_dev` policy -/

/-- C5: `start_dev` first refreshes the device info; when the observed
state is `QUIESCED` it issues only `END_USER_RECOVERY(pid)` (no
`SET_PARAMS`, no JSON flush, no `START_DEV`); otherwise it issues
`SET_PARAMS`, then the JSON flush, then `START_DEV`, and on success
returns `Ok(0)`. -/
theorem start_dev_policy (exec : CtrlOp → Except UblkError Int) (st : Nat) (pid : Int)
    (hinfo : ∃ v, exec CtrlOp.get_dev_info = Except.ok v) :
    (st = UBLK_S_DEV_QUIESCED →
      (start_dev exec st pid).1 = [CtrlOp.get_dev_info, CtrlOp.end_user_recover pid]) ∧
    (st ≠ UBLK_S_DEV_QUIESCED →
      CtrlOp.end_user_recover pid ∉ (start_dev exec st pid).1 ∧
      ((∃ a, exec CtrlOp.set_params = Except.ok a) →
       (∃ b, exec CtrlOp.flush_json = Except.ok b) →
       (∃ c, exec (CtrlOp.start_dev_cmd pid) = Except.ok c) →
       start_dev exec st pid =
         ([CtrlOp.get_dev_info, CtrlOp.set_params, CtrlOp.flush_json,
           CtrlOp.start_dev_cmd pid], Except.ok 0))) := by
  obtain ⟨v, hv⟩ := hinfo
  constructor
  · intro hst
    have hcond : ¬ st ≠ UBLK_S_DEV_QUIESCED := by simpa using hst
    unfold start_dev
    rw [hv]
    simp only [if_neg hcond]
    rcases he : exec (CtrlOp.end_user_recover pid) with e | w <;> simp [he]
  · intro hst
    constructor
    · unfold start_dev
      rw [hv]
      simp only [if_pos hst]
      rcases h1 : exec CtrlOp.set_params with e1 | v1 <;> simp [h1]
      rcases h2 : exec CtrlOp.flush_json with e2 | v2 <;> simp [h2]
      rcases h3 : exec (CtrlOp.start_dev_cmd pid) with e3 | v3 <;> simp [h3]
    · rintro ⟨a, ha⟩ ⟨b, hb⟩ ⟨c, hc⟩
      unfold start_dev
      rw [hv, if_pos hst, ha, hb, hc]

/-- C5 witness: with every command succeeding and observed state
`QUIESCED`, the issued trace is exactly
`[GET_DEV_INFO, END_USER_RECOVERY(7)]`. -/
theorem start_dev_policy_witness :
    (start_dev (fun _ => Except.ok 0) UBLK_S_DEV_QUIESCED 7).1 =
      [CtrlOp.get_dev_info, CtrlOp.end_user_recover 7] :=
  (start_dev_policy (fun _ => Except.ok 0) UBLK_S_DEV_QUIESCED 7 ⟨0, rfl⟩).1 rfl

/-! ## Claim C7: `start_user_recover` retry loop -/

/-- Exact behaviour of the retry loop when the first `k` attempts return
`-EBUSY` and attempt `k` (0-based) returns `0`. -/
lemma start_user_recover_go_exact (k : Nat) :
    ∀ (attempt : Nat → Except UblkError Int) (n count : Nat),
      count + 100 * k < 30000 →
      (∀ j, j < k → attempt (n + j) = .ok (-EBUSY)) →
      attempt (n + k) = .ok 0 →
      start_user_recover_go attempt n count = (.ok 0, k + 1, k) := by
  induction k with
  | zero =>
    intro attempt n count hc hall h0
    rw [start_user_recover_go]
    simp only [Nat.add_zero] at h0
    rw [h0]
    simp [EBUSY]
  | succ k ih =>
    intro attempt n count hc hall hk
    have h0 : attempt n = .ok (-EBUSY) := by
      have := hall 0 (by omega)
      simpa using this
    rw [start_user_recover_go, h0]
    have hrec : start_user_recover_go attempt (n + 1) (count + 100) = (.ok 0, k + 1, k) := by
      apply ih
      · omega
      · intro j hj
        have h2 : n + 1 + j = n + (j + 1) := by omega
        rw [h2]
        exact hall (j + 1) (by omega)
      · have h2 : n + 1 + k = n + (k + 1) := by omega
        rw [h2]
        exact hk
    dsimp only
    rw [if_pos rfl, dif_pos (show count + 100 < 30000 by omega), hrec]
    simp [bumpRetry]

/-- The retry loop makes at most `(30000 - count) / 100` attempts and
never sleeps more often than it attempts. -/
lemma start_user_recover_go_bound (m : Nat) :
    ∀ (attempt : Nat → Except UblkError Int) (n count : Nat),
      30000 - count = m → 100 ∣ count → count < 30000 →
      (start_user_recover_go attempt n count).2.1 * 100 ≤ 30000 - count ∧
      (start_user_recover_go attempt n count).2.2 ≤
        (start_user_recover_go attempt n count).2.1 := by
  induction m using Nat.strong_induction_on with
  | _ m ih =>
    intro attempt n count hm hdvd hlt
    rw [start_user_recover_go]
    rcases h : attempt n with e | r
    · dsimp only
      omega
    · dsimp only
      by_cases hr : r = -EBUSY
      · rw [if_pos hr]
        by_cases hc : count + 100 < 30000
        · rw [dif_pos hc]
          have hrec := ih (30000 - (count + 100)) (by omega) attempt (n + 1)
            (count + 100) rfl (by omega) (by omega)
          dsimp only [bumpRetry]
          omega
        · rw [dif_neg hc]
          dsimp only
          omega
      · rw [if_neg hr]
        dsimp only
        omega

/-- C7: `start_user_recover` returns immediately on the first attempt
that is not `Ok(-EBUSY)`; with 100 ms of backoff per `-EBUSY` it makes at
most 300 attempts (30 s); and when the first `k < 300` attempts yield
`-EBUSY` and the next yields `0`, it returns `Ok(0)` after exactly
`k + 1` attempts and `k` sleeps. -/
theorem start_user_recover_backoff (attempt : Nat → Except UblkError Int) :
    ((start_user_recover attempt).2.1 ≤ 300 ∧
     (start_user_recover attempt).2.2 ≤ (start_user_recover attempt).2.1) ∧
    (attempt 0 ≠ .ok (-EBUSY) → start_user_recover attempt = (attempt 0, 1, 0)) ∧
    (∀ k, k < 300 → (∀ j, j < k → attempt j = .ok (-EBUSY)) → attempt k = .ok 0 →
      start_user_recover attempt = (.ok 0, k + 1, k)) := by
  refine ⟨?_, ?_, ?_⟩
  · have h := start_user_recover_go_bound 30000 attempt 0 0 rfl (by norm_num) (by norm_num)
    unfold start_user_recover
    omega
  · intro h
    unfold start_user_recover
    rw [start_user_recover_go]
    rcases h0 : attempt 0 with e | r
    · simp
    · have hr : r ≠ -EBUSY := by
        intro hc
        exact h (by rw [h0, hc])
      dsimp only
      rw [if_neg hr]
  · intro k hk hall h0
    unfold start_user_recover
    apply start_user_recover_go_exact k attempt 0 0 (by omega)
    · intro j hj
      simpa using hall j hj
    · simpa using h0

/-- C7 witness: one `-EBUSY` followed by success returns `Ok(0)` after 2
attempts and 1 sleep. -/
theorem start_user_recover_backoff_witness :
    start_user_recover (fun j => if j < 1 then .ok (-EBUSY) else .ok 0) =
      (.ok 0, 2, 1) :=
  (start_user_recover_backoff (fun j => if j < 1 then .ok (-EBUSY) else .ok 0)).2.2 1
    (by norm_num)
    (fun j hj => by
      have hj0 : j = 0 := by omega
      subst hj0
      rfl)
    rfl

/-! ## Claim C1: `queue_io_cmd` flag-to-opcode protocol -/

/-- C1: `queue_io_cmd` maps the slot's current flags to the next kernel
op.  If the slot is not `FREE`, or needs neither a commit nor a fetch,
nothing is pushed and the whole state (slot and `cmd_inflight`
included) is unchanged.  If `FREE` and `NEED_COMMIT` are set it pushes
exactly one `COMMIT_AND_FETCH` SQE; otherwise, if `FREE` and
`NEED_FETCH` are set, exactly one `FETCH` SQE.  Exactly on a push the
slot's flags are zeroed and `cmd_inflight` is incremented by one. -/
theorem queue_io_cmd_flag_protocol (q : QState) (tag : Nat) :
    ((q.ios tag).flags &&& UBLK_IO_FREE = 0 ∨
      ((q.ios tag).flags &&& UBLK_IO_NEED_COMMIT_RQ_COMP = 0 ∧
       (q.ios tag).flags &&& UBLK_IO_NEED_FETCH_RQ = 0) →
      queue_io_cmd q tag = (q, 0)) ∧
    ((q.ios tag).flags &&& UBLK_IO_FREE ≠ 0 →
     (q.ios tag).flags &&& UBLK_IO_NEED_COMMIT_RQ_COMP ≠ 0 →
      queue_io_cmd q tag =
        ({ q with
            ios := setSlot q.ios tag { q.ios tag with flags := 0 },
            cmd_inflight := q.cmd_inflight + 1,
            pushed := q.pushed ++
              [{ cmd_op := UBLK_IO_COMMIT_AND_FETCH_REQ, tag := tag, q_id := q.q_id,
                 result := (q.ios tag).result,
                 user_data := build_user_data tag UBLK_IO_COMMIT_AND_FETCH_REQ 0 false,
                 iof := (q.ios tag).flags }] }, 1)) ∧
    ((q.ios tag).flags &&& UBLK_IO_FREE ≠ 0 →
     (q.ios tag).flags &&& UBLK_IO_NEED_COMMIT_RQ_COMP = 0 →
     (q.ios tag).flags &&& UBLK_IO_NEED_FETCH_RQ ≠ 0 →
      queue_io_cmd q tag =
        ({ q with
            ios := setSlot q.ios tag { q.ios tag with flags := 0 },
            cmd_inflight := q.cmd_inflight + 1,
            pushed := q.pushed ++
              [{ cmd_op := UBLK_IO_FETCH_REQ, tag := tag, q_id := q.q_id,
                 result := (q.ios tag).result,
                 user_data := build_user_data tag UBLK_IO_FETCH_REQ 0 false,
                 iof := (q.ios tag).flags }] }, 1)) :=
  ⟨fun h => queue_io_cmd_no_push q tag h,
   fun h4 h2 => queue_io_cmd_push_commit q tag h4 h2,
   fun h4 h2 h1 => queue_io_cmd_push_fetch q tag h4 h2 h1⟩

/-- C1 witness: on a slot with flags `NEED_COMMIT|FREE` and result `9`,
`queue_io_cmd` pushes one `COMMIT_AND_FETCH` SQE, zeroes the flags and
bumps `cmd_inflight` from `3` to `4`. -/
theorem queue_io_cmd_flag_protocol_witness :
    queue_io_cmd
      { q_id := 0, q_depth := 1,
        ios := fun _ =>
          { flags := UBLK_IO_NEED_COMMIT_RQ_COMP ||| UBLK_IO_FREE, result := 9 },
        cmd_inflight := 3, q_state := 0, pushed := [] } 0 =
      ({ q_id := 0, q_depth := 1,
         ios := setSlot
           (fun _ =>
             { flags := UBLK_IO_NEED_COMMIT_RQ_COMP ||| UBLK_IO_FREE, result := 9 })
           0 { flags := 0, result := 9 },
         cmd_inflight := 4, q_state := 0,
         pushed :=
           [{ cmd_op := UBLK_IO_COMMIT_AND_FETCH_REQ, tag := 0, q_id := 0,
              result := 9,
              user_data := build_user_data 0 UBLK_IO_COMMIT_AND_FETCH_REQ 0 false,
              iof := UBLK_IO_NEED_COMMIT_RQ_COMP ||| UBLK_IO_FREE }] }, 1) := by
  have h := (queue_io_cmd_flag_protocol
    { q_id := 0, q_depth := 1,
      ios := fun _ =>
        { flags := UBLK_IO_NEED_COMMIT_RQ_COMP ||| UBLK_IO_FREE, result := 9 },
      cmd_inflight := 3, q_state := 0, pushed := [] } 0).2.1 (by decide) (by decide)
  exact h

/-! ## Claim C2: quiescent-point slot-flag invariant -/

/-- C2: at every quiescent point of every run (after construction, after
priming, and after each `handle_cqe` / `complete_io` — i.e. after each
event of the run), every slot's flags are exactly one of
`NEED_FETCH|FREE`, `{}` (inflight / target-owned), `NEED_COMMIT|FREE`,
or `FREE` alone. -/
theorem slot_flags_quiescent_invariant (qid depth : Nat) (evs : List QEvent)
    (hwf : WFEvents depth evs) :
    (∀ j, j < depth → flagsOK ((UblkQueue.new qid depth).ios j).flags) ∧
    (∀ j, j < depth → flagsOK ((qrun qid depth evs).ios j).flags) := by
  constructor
  · intro j _
    left
    rfl
  · intro j hj
    obtain ⟨⟨-, hflags, -⟩, -⟩ := qrun_PostInv qid depth evs hwf
    rcases hflags j hj with h | h | h <;> rw [flagsOK, h]
    · right; left; rfl
    · right; right; left; rfl
    · right; right; right; rfl

/-- C2 witness: after priming a depth-1 queue and handling an `ABORT`
CQE, slot 0 has one of the four allowed flag values. -/
theorem slot_flags_quiescent_invariant_witness :
    flagsOK ((qrun 0 1 [QEvent.kcqe 0 (-19)]).ios 0).flags :=
  (slot_flags_quiescent_invariant 0 1 [QEvent.kcqe 0 (-19)] (by decide)).2 0
    (by decide)

/-! ## Claim C3: no FETCH after STOPPING -/

/-- C3: once the `STOPPING` bit is observed latched in `q_state` (at the
end of the run prefix `evs1`), no SQE with opcode `UBLK_IO_FETCH_REQ`,
and no SQE built from a slot whose flags contain `NEED_FETCH`, is ever
pushed during the rest of the run. -/
theorem no_fetch_after_stopping (qid depth : Nat) (evs1 evs2 : List QEvent)
    (hwf : WFEvents depth (evs1 ++ evs2))
    (_hstop : (qrun qid depth evs1).q_state &&& UBLK_QUEUE_STOPPING ≠ 0) :
    ∀ s ∈ (qrun qid depth (evs1 ++ evs2)).pushed.drop
        (qrun qid depth evs1).pushed.length,
      s.cmd_op ≠ UBLK_IO_FETCH_REQ ∧ s.iof &&& UBLK_IO_NEED_FETCH_RQ = 0 := by
  have hwf1 : WFEvents depth evs1 := fun e he => hwf e (List.mem_append_left _ he)
  have hwf2 : WFEvents depth evs2 := fun e he => hwf e (List.mem_append_right _ he)
  obtain ⟨hinv1, -⟩ := qrun_PostInv qid depth evs1 hwf1
  have hrunapp : qrun qid depth (evs1 ++ evs2) =
      evs2.foldl qstep (qrun qid depth evs1) := by
    rw [qrun_eq_foldl, qrun_eq_foldl, List.foldl_append]
  obtain ⟨-, extra, hp, hext⟩ :=
    foldl_qstep_PostInv qid depth evs2 (qrun qid depth evs1) hinv1 hwf2
  rw [hrunapp, hp, List.drop_left]
  intro s hs
  obtain ⟨hop, hiof⟩ := hext s hs
  refine ⟨?_, hiof⟩
  rw [hop]
  decide

/-- C3 witness: after an `ABORT` latches `STOPPING` on a depth-1 queue,
the one SQE pushed by a following `complete_io` is a `COMMIT_AND_FETCH`
built from a slot without `NEED_FETCH`. -/
theorem no_fetch_after_stopping_witness :
    (⟨UBLK_IO_COMMIT_AND_FETCH_REQ, 0, 0, 7,
        build_user_data 0 UBLK_IO_COMMIT_AND_FETCH_REQ 0 false,
        UBLK_IO_NEED_COMMIT_RQ_COMP ||| UBLK_IO_FREE⟩ : KSqe).cmd_op ≠
        UBLK_IO_FETCH_REQ ∧
    (⟨UBLK_IO_COMMIT_AND_FETCH_REQ, 0, 0, 7,
        build_user_data 0 UBLK_IO_COMMIT_AND_FETCH_REQ 0 false,
        UBLK_IO_NEED_COMMIT_RQ_COMP ||| UBLK_IO_FREE⟩ : KSqe).iof &&&
      UBLK_IO_NEED_FETCH_RQ = 0 :=
  no_fetch_after_stopping 0 1 [QEvent.kcqe 0 (-19)] [QEvent.complete 0 7]
    (by decide) (by decide) _ (by decide)

/-! ## Claim C10: only COMMIT_AND_FETCH after priming -/

/-- C10: after `submit_fetch_commands` has primed all tags, no slot ever
carries `NEED_FETCH` again, so every kernel-command SQE pushed after
priming is a `COMMIT_AND_FETCH`; `FETCH` SQEs are pushed only by the
priming prefix itself. -/
theorem post_priming_commit_only (qid depth : Nat) (evs : List QEvent)
    (hwf : WFEvents depth evs) :
    (∀ j, j < depth →
      ((qrun qid depth evs).ios j).flags &&& UBLK_IO_NEED_FETCH_RQ = 0) ∧
    ∃ rest, (qrun qid depth evs).pushed =
        (List.range depth).map (primeSqe qid) ++ rest ∧
      (∀ s ∈ (List.range depth).map (primeSqe qid),
        s.cmd_op = UBLK_IO_FETCH_REQ) ∧
      ∀ s ∈ rest, s.cmd_op = UBLK_IO_COMMIT_AND_FETCH_REQ ∧
        s.cmd_op ≠ UBLK_IO_FETCH_REQ := by
  obtain ⟨⟨-, hflags, -⟩, extra, hp, hext⟩ := qrun_PostInv qid depth evs hwf
  constructor
  · intro j hj
    rcases hflags j hj with h | h | h <;> rw [h] <;> decide
  · refine ⟨extra, hp, ?_, ?_⟩
    · intro s hs
      obtain ⟨t, -, rfl⟩ := List.mem_map.mp hs
      rfl
    · intro s hs
      obtain ⟨hop, -⟩ := hext s hs
      refine ⟨hop, ?_⟩
      rw [hop]
      decide

/-- C10 witness: on a depth-1 queue, one post-priming `complete_io` run
leaves slot 0 without `NEED_FETCH` and pushes only `COMMIT_AND_FETCH`
after the priming `FETCH`. -/
theorem post_priming_commit_only_witness :
    (∀ j, j < 1 →
      ((qrun 0 1 [QEvent.complete 0 3]).ios j).flags &&& UBLK_IO_NEED_FETCH_RQ = 0) ∧
    ∃ rest, (qrun 0 1 [QEvent.complete 0 3]).pushed =
        (List.range 1).map (primeSqe 0) ++ rest ∧
      (∀ s ∈ (List.range 1).map (primeSqe 0), s.cmd_op = UBLK_IO_FETCH_REQ) ∧
      ∀ s ∈ rest, s.cmd_op = UBLK_IO_COMMIT_AND_FETCH_REQ ∧
        s.cmd_op ≠ UBLK_IO_FETCH_REQ :=
  post_priming_commit_only 0 1 [QEvent.complete 0 3] (by decide)
